import Mathlib

/-!
# Formal model of `src/models/BnnModel.py`

The file `BnnModel.py` defines a reparameterized stochastic linear layer
(`BnnLayer`) and three networks built from it: `BayesianModel` (fixed depth,
two layers), `MLPBayesianModel` and `DropoutBayesianModel` (variable depth).

Modelling conventions, chosen once for the whole development:

* Scalars are real numbers (`ℝ`), the exact-arithmetic reading of torch's
  floating-point tensors.
* A parameter tensor of shape `(out, in)` is a function `ℕ → ℕ → ℝ` together
  with the layer's `in_features`/`out_features` fields recording the shape;
  a data tensor of shape `[B, n]` is a list of `B` rows, each a list of `n`
  reals, so that runtime shape errors are observable.
* torch draws standard-normal noise inside `nn.init.kaiming_normal_` and
  `Normal(...).rsample()`, and Bernoulli masks inside `nn.Dropout`; the model
  receives that drawn noise as explicit oracle arguments, so every forward
  call is the deterministic function of parameters, input and noise that the
  reparameterization trick computes.  The distribution of the noise is used
  only where a claim is probabilistic, via `gaussianReal`.
* A torch runtime shape error (`F.linear` trailing-dimension mismatch,
  `BatchNorm1d` channel/batch checks) is modelled as `none`; a Python
  `raise` in the repository's own code is modelled as `Except.error` with
  the raised message.
-/

namespace BnnModel

noncomputable section

/-- Reparameterized sample of `Normal(mu, scale)`, i.e. `rsample()`:
`mu + scale * eps` with `eps` a standard-normal draw. -/
def rsample (mu scale eps : ℝ) : ℝ := mu + scale * eps

/-- `F.relu` on a scalar. -/
def relu (x : ℝ) : ℝ := max x 0

/-- `F.relu` applied to a `[B, n]` tensor. -/
def reluBatch (xs : List (List ℝ)) : List (List ℝ) := xs.map fun r => r.map relu

/-- `F.linear(x, w, b) = x @ w^T + b` on one input row `x`, for a weight
matrix of shape `(outF, inF)` given as the indexed function `w` and a bias
vector `b`.  torch raises a shape error when the trailing dimension of `x`
differs from the weight's second dimension; that is modelled as `none`. -/
def Flinear (outF inF : ℕ) (w : ℕ → ℕ → ℝ) (b : ℕ → ℝ) (x : List ℝ) :
    Option (List ℝ) :=
  if x.length = inF then
    some ((List.range outF).map fun i =>
      (∑ j ∈ Finset.range inF, x.getD j 0 * w i j) + b i)
  else
    none

/-- The stochastic linear layer `BnnLayer`: per-entry mean and (log-scale)
standard-deviation parameters for the weight and the bias distributions.
Despite their names (kept from the source), `weight_std`/`bias_std` hold the
logarithm of the standard deviation: `forward` exponentiates them. -/
structure BnnLayer where
  in_features : ℕ
  out_features : ℕ
  weight_mu : ℕ → ℕ → ℝ
  weight_std : ℕ → ℕ → ℝ
  bias_mu : ℕ → ℝ
  bias_std : ℕ → ℝ

/-- The standard deviation used by
`nn.init.kaiming_normal_(w, mode="fan_in", nonlinearity="relu")`:
gain `sqrt 2` divided by the square root of the input fan. -/
def kaimingStd (fanIn : ℕ) : ℝ := Real.sqrt 2 / Real.sqrt fanIn

/-- `BnnLayer.__init__` together with the `reset_parameters` call it makes:
`eta i j` is the standard-normal noise drawn by `kaiming_normal_` for entry
`(i, j)` of `weight_mu`; `weight_std` and `bias_std` are constant `-5.0`,
`bias_mu` is zero.  The `__init__` body performs no argument validation. -/
def BnnLayer.construct (inF outF : ℕ) (eta : ℕ → ℕ → ℝ) : BnnLayer where
  in_features := inF
  out_features := outF
  weight_mu := fun i j => kaimingStd inF * eta i j
  weight_std := fun _ _ => -5
  bias_mu := fun _ => 0
  bias_std := fun _ => -5

/-- The Python call surface of `BnnLayer(in_features, out_features)`: the
constructor body contains no `raise` and no validation of its arguments, so
the repository's own code always returns the constructed layer.  (Errors
that torch primitives may raise internally for degenerate shapes belong to
the numerical substrate, which the specification treats as a black box; they
are not control flow of `BnnModel.py`.) -/
def BnnLayer.constructE (inF outF : ℕ) (eta : ℕ → ℕ → ℝ) :
    Except String BnnLayer :=
  .ok (BnnLayer.construct inF outF eta)

/-- `BnnLayer.forward` on one input row: sample
`weight = Normal(weight_mu, exp(weight_std)).rsample()` and
`bias = Normal(bias_mu, exp(bias_std)).rsample()` elementwise with
standard-normal draws `epsW`/`epsB`, then apply `F.linear`. -/
def BnnLayer.forward (l : BnnLayer) (epsW : ℕ → ℕ → ℝ) (epsB : ℕ → ℝ)
    (x : List ℝ) : Option (List ℝ) :=
  Flinear l.out_features l.in_features
    (fun i j => rsample (l.weight_mu i j) (Real.exp (l.weight_std i j)) (epsW i j))
    (fun i => rsample (l.bias_mu i) (Real.exp (l.bias_std i)) (epsB i))
    x

/-- Option-valued map over a list, failing as soon as one element fails;
used to apply a row-level operation to every row of a batch. -/
def mapMOpt (f : α → Option β) : List α → Option (List β)
  | [] => some []
  | a :: as => (f a).bind fun b => (mapMOpt f as).map fun bs => b :: bs

/-- `BnnLayer.forward` on a `[B, n]` batch: one weight/bias sample is drawn
per call and shared by every row of the batch. -/
def BnnLayer.forwardBatch (l : BnnLayer) (epsW : ℕ → ℕ → ℝ) (epsB : ℕ → ℝ)
    (xs : List (List ℝ)) : Option (List (List ℝ)) :=
  mapMOpt (l.forward epsW epsB) xs

/-- The randomness drawn inside one stage's (or one layer-call's) forward
pass: standard-normal noise for the weight and bias `rsample`, and the
Bernoulli keep-mask drawn by `nn.Dropout` where a dropout is present
(`keep r c = true` keeps entry `(r, c)`). -/
structure Noise where
  w : ℕ → ℕ → ℝ
  b : ℕ → ℝ
  keep : ℕ → ℕ → Bool

/-- The fixed-depth `BayesianModel`: exactly two `BnnLayer`s. -/
structure BayesianModel where
  layer1 : BnnLayer
  layer2 : BnnLayer

/-- `BayesianModel.__init__`: `layer1 = BnnLayer(input_size, hidden_size)`,
`layer2 = BnnLayer(hidden_size, output_size)`, with `eta1`/`eta2` the
kaiming noise drawn by the two layer constructions. -/
def BayesianModel.construct (inputSize hiddenSize outputSize : ℕ)
    (eta1 eta2 : ℕ → ℕ → ℝ) : BayesianModel where
  layer1 := BnnLayer.construct inputSize hiddenSize eta1
  layer2 := BnnLayer.construct hiddenSize outputSize eta2

/-- `BayesianModel.forward`: `x = F.relu(self.layer1(x)); x = self.layer2(x)`,
with `n1`/`n2` the noise drawn inside the two layer calls. -/
def BayesianModel.forward (m : BayesianModel) (n1 n2 : Noise)
    (xs : List (List ℝ)) : Option (List (List ℝ)) :=
  (m.layer1.forwardBatch n1.w n1.b xs).bind fun ys =>
    m.layer2.forwardBatch n2.w n2.b (reluBatch ys)

/-- Default `eps` of `nn.BatchNorm1d`, `1e-5`. -/
def bnEps : ℝ := 1 / 100000

/-- `nn.BatchNorm1d(n)` in training mode on a `[B, n]` batch: per-channel
batch mean and biased variance, normalization with `eps`, then the learnable
affine `gamma * xhat + beta`.  torch raises unless the batch has more than
one row (training-mode check) and the channel dimension equals `n`; both
are modelled as `none`. -/
def batchNorm1d (n : ℕ) (gamma beta : ℕ → ℝ) (xs : List (List ℝ)) :
    Option (List (List ℝ)) :=
  if 2 ≤ xs.length ∧ ∀ r ∈ xs, r.length = n then
    let B : ℝ := xs.length
    let mean : ℕ → ℝ := fun c => (xs.map fun r => r.getD c 0).sum / B
    let var : ℕ → ℝ := fun c =>
      (xs.map fun r => (r.getD c 0 - mean c) ^ 2).sum / B
    some (xs.map fun r => (List.range n).map fun c =>
      gamma c * ((r.getD c 0 - mean c) / Real.sqrt (var c + bnEps)) + beta c)
  else
    none

/-- `nn.Dropout(p)` in training mode on a `[B, n]` batch: each entry is kept
and scaled by `1 / (1 - p)` where the Bernoulli mask `keep` holds, and zeroed
elsewhere.  Entry `(r, c)` of the output is computed from entry `(r, c)` of
the input, so the tensor is rebuilt index by index. -/
def dropout (p : ℝ) (keep : ℕ → ℕ → Bool) (xs : List (List ℝ)) :
    List (List ℝ) :=
  (List.range xs.length).map fun r =>
    (List.range (xs.getD r []).length).map fun c =>
      if keep r c then (xs.getD r []).getD c 0 / (1 - p) else 0

/-- One stage of a variable-depth model, exactly as built by the
constructors: `DropoutBayesianModel` packs
`Sequential(BnnLayer, BatchNorm1d(bnFeatures), ReLU, Dropout(p))` for a
hidden stage, `MLPBayesianModel` packs `Sequential(BnnLayer, ReLU)`, and
both end with a bare `BnnLayer`.  The batch-norm stage carries its learnable
affine parameters `gamma`/`beta` (initialized by torch to `1`/`0`). -/
inductive Stage where
  | dropHidden (layer : BnnLayer) (bnFeatures : ℕ) (gamma beta : ℕ → ℝ) (p : ℝ)
  | mlpHidden (layer : BnnLayer)
  | finalLayer (layer : BnnLayer)

/-- The `BnnLayer` contained in a stage. -/
def Stage.layer : Stage → BnnLayer
  | .dropHidden l _ _ _ _ => l
  | .mlpHidden l => l
  | .finalLayer l => l

/-- Whether a stage contains a batch-norm (hence needs batch size `> 1`). -/
def Stage.isDrop : Stage → Bool
  | .dropHidden _ _ _ _ _ => true
  | .mlpHidden _ => false
  | .finalLayer _ => false

/-- Forward pass of one stage (`nn.Sequential` applies its children in
order): layer, then — in the regularized variant — batch norm, ReLU and
dropout; `nz` is the noise drawn inside this stage's call. -/
def Stage.forward : Stage → Noise → List (List ℝ) → Option (List (List ℝ))
  | .dropHidden l n gamma beta p, nz, xs =>
      (l.forwardBatch nz.w nz.b xs).bind fun ys =>
        (batchNorm1d n gamma beta ys).map fun zs =>
          dropout p nz.keep (reluBatch zs)
  | .mlpHidden l, nz, xs => (l.forwardBatch nz.w nz.b xs).map reluBatch
  | .finalLayer l, nz, xs => l.forwardBatch nz.w nz.b xs

/-- `forward` of the variable-depth models: `for layer in self.layers:
x = layer(x)`; `ns i` is the noise drawn by stage `i`'s call. -/
def stagesForward : List Stage → (ℕ → Noise) → List (List ℝ) →
    Option (List (List ℝ))
  | [], _, xs => some xs
  | s :: rest, ns, xs =>
      (s.forward (ns 0) xs).bind (stagesForward rest fun i => ns (i + 1))

/-- The error message raised by both variable-depth constructors. -/
def mlpErrorMessage : String := "at least need two values to create an mlp"

/-- The stage built at loop index `i` of `MLPBayesianModel.__init__`:
`Sequential(BnnLayer(args[i], args[i+1]), ReLU())` when `i` is not the last
index, a bare `BnnLayer(args[i], args[i+1])` when it is.  `eta i` is the
kaiming noise drawn by the layer construction at index `i`. -/
def mlpStage (args : List ℕ) (eta : ℕ → ℕ → ℕ → ℝ) (i : ℕ) : Stage :=
  if i < args.length - 2 then
    .mlpHidden (BnnLayer.construct (args.getD i 0) (args.getD (i + 1) 0) (eta i))
  else
    .finalLayer (BnnLayer.construct (args.getD i 0) (args.getD (i + 1) 0) (eta i))

/-- The stage built at loop index `i` of `DropoutBayesianModel.__init__`:
as `mlpStage` but a hidden stage is
`Sequential(BnnLayer(args[i], args[i+1]), BatchNorm1d(args[i+1]), ReLU(),
Dropout(0.2))`; batch norm's affine parameters start at `1`/`0`. -/
def dropStage (args : List ℕ) (eta : ℕ → ℕ → ℕ → ℝ) (i : ℕ) : Stage :=
  if i < args.length - 2 then
    .dropHidden (BnnLayer.construct (args.getD i 0) (args.getD (i + 1) 0) (eta i))
      (args.getD (i + 1) 0) (fun _ => 1) (fun _ => 0) (2 / 10)
  else
    .finalLayer (BnnLayer.construct (args.getD i 0) (args.getD (i + 1) 0) (eta i))

/-- `MLPBayesianModel.__init__` with feature sizes `args`: raise unless at
least 3 sizes are given, otherwise build one stage per loop index
`i < len(args) - 1`. -/
def MLPBayesianModel.construct (args : List ℕ) (eta : ℕ → ℕ → ℕ → ℝ) :
    Except String (List Stage) :=
  if args.length < 3 then .error mlpErrorMessage
  else .ok ((List.range (args.length - 1)).map (mlpStage args eta))

/-- `DropoutBayesianModel.__init__`: same control flow as
`MLPBayesianModel.__init__`, with the regularized stages. -/
def DropoutBayesianModel.construct (args : List ℕ) (eta : ℕ → ℕ → ℕ → ℝ) :
    Except String (List Stage) :=
  if args.length < 3 then .error mlpErrorMessage
  else .ok ((List.range (args.length - 1)).map (dropStage args eta))

/-- A learnable tensor as seen by an external optimizer: a matrix with its
shape or a vector with its length. -/
inductive ParamTensor where
  | mat (rows cols : ℕ) (v : ℕ → ℕ → ℝ)
  | vec (len : ℕ) (v : ℕ → ℝ)

/-- The named learnable parameters of a `BnnLayer`, in the order the four
`nn.Parameter` attributes are registered by `__init__`, as enumerated by
`nn.Module.named_parameters` on the layer. -/
def BnnLayer.namedParameters (l : BnnLayer) : List (String × ParamTensor) :=
  [("weight_mu", .mat l.out_features l.in_features l.weight_mu),
   ("weight_std", .mat l.out_features l.in_features l.weight_std),
   ("bias_mu", .vec l.out_features l.bias_mu),
   ("bias_std", .vec l.out_features l.bias_std)]

/-- Qualify every parameter name of a submodule with the attribute name it
is registered under, as `named_parameters` does. -/
def underName (pre : String) (ps : List (String × ParamTensor)) :
    List (String × ParamTensor) :=
  ps.map fun q => (pre ++ "." ++ q.1, q.2)

/-- `named_parameters` of a `BayesianModel`: the two registered submodules
`layer1` and `layer2` contribute their parameters under their names. -/
def BayesianModel.namedParameters (m : BayesianModel) :
    List (String × ParamTensor) :=
  underName "layer1" m.layer1.namedParameters ++
    underName "layer2" m.layer2.namedParameters

/-- `named_parameters` of one stage: a bare layer contributes its own
parameters; a `Sequential` qualifies its children by position, the
`BnnLayer` being child `0` and (in the regularized variant) the batch norm
child `1` with its learnable `weight`/`bias`; `ReLU` and `Dropout` own no
parameters. -/
def Stage.namedParameters : Stage → List (String × ParamTensor)
  | .dropHidden l n gamma beta _ =>
      underName "0" l.namedParameters ++
        [("1.weight", .vec n gamma), ("1.bias", .vec n beta)]
  | .mlpHidden l => underName "0" l.namedParameters
  | .finalLayer l => l.namedParameters

/-- `named_parameters` of a variable-depth model whose stage list starts at
container index `k`: stage `i` is registered under `layers.<k+i>`. -/
def stagesNamedParameters (k : ℕ) : List Stage → List (String × ParamTensor)
  | [] => []
  | s :: rest =>
      underName ("layers." ++ toString k) s.namedParameters ++
        stagesNamedParameters (k + 1) rest

/-- Whether a stage embeds a batch norm over exactly its layer's output
channel count (true of every stage the constructors build). -/
def Stage.bnOK : Stage → Prop
  | .dropHidden l n _ _ _ => n = l.out_features
  | .mlpHidden _ => True
  | .finalLayer _ => True

/-- The stage list is dimension-chained: the first stage consumes `a`
features, each stage feeds the next, the last produces `b` features, and
every batch norm is over its layer's output channels. -/
def ChainOK : List Stage → ℕ → ℕ → Prop
  | [], a, b => a = b
  | s :: rest, a, b =>
      s.layer.in_features = a ∧ s.bnOK ∧ ChainOK rest s.layer.out_features b

end

section Lemmas

theorem getD_range_map {α : Type} (f : ℕ → α) (n i : ℕ) (d : α) (h : i < n) :
    ((List.range n).map f).getD i d = f i := by
  simp [List.getD_eq_getElem?_getD, List.getElem?_range h]

theorem BnnLayer.forward_eq_some (l : BnnLayer) (epsW : ℕ → ℕ → ℝ)
    (epsB : ℕ → ℝ) (x : List ℝ) (hx : x.length = l.in_features) :
    l.forward epsW epsB x =
      some ((List.range l.out_features).map fun i =>
        (∑ j ∈ Finset.range l.in_features,
          x.getD j 0 * (l.weight_mu i j + Real.exp (l.weight_std i j) * epsW i j))
        + (l.bias_mu i + Real.exp (l.bias_std i) * epsB i)) := by
  simp [BnnLayer.forward, Flinear, rsample, hx]

theorem BnnLayer.forward_eq_none (l : BnnLayer) (epsW : ℕ → ℕ → ℝ)
    (epsB : ℕ → ℝ) (x : List ℝ) (hx : x.length ≠ l.in_features) :
    l.forward epsW epsB x = none := by
  simp [BnnLayer.forward, Flinear, hx]

theorem mapMOpt_eq_some_of {α β : Type} (f : α → Option β) (P : β → Prop)
    (as : List α) (h : ∀ a ∈ as, ∃ b, f a = some b ∧ P b) :
    ∃ bs, mapMOpt f as = some bs ∧ bs.length = as.length ∧ ∀ b ∈ bs, P b := by
  induction as with
  | nil => exact ⟨[], rfl, rfl, by simp⟩
  | cons a as ih =>
    obtain ⟨b, hfa, hPb⟩ := h a (by simp)
    obtain ⟨bs, hbs, hlen, hP⟩ := ih fun a' ha' => h a' (by simp [ha'])
    refine ⟨b :: bs, by simp [mapMOpt, hfa, hbs], by simp [hlen], ?_⟩
    intro b' hb'
    rcases List.mem_cons.mp hb' with h1 | h2
    · exact h1 ▸ hPb
    · exact hP _ h2

theorem mapMOpt_eq_none {α β : Type} (f : α → Option β) (as : List α)
    (a : α) (ha : a ∈ as) (hfa : f a = none) : mapMOpt f as = none := by
  induction as with
  | nil => cases ha
  | cons a' as ih =>
    rcases List.mem_cons.mp ha with rfl | h
    · simp [mapMOpt, hfa]
    · cases hfa' : f a' <;> simp [mapMOpt, hfa', ih h]

theorem BnnLayer.forwardBatch_shape (l : BnnLayer) (epsW : ℕ → ℕ → ℝ)
    (epsB : ℕ → ℝ) (xs : List (List ℝ))
    (h : ∀ r ∈ xs, r.length = l.in_features) :
    ∃ ys, l.forwardBatch epsW epsB xs = some ys ∧ ys.length = xs.length ∧
      ∀ r ∈ ys, r.length = l.out_features := by
  refine mapMOpt_eq_some_of (l.forward epsW epsB)
    (fun r => r.length = l.out_features) xs ?_
  intro r hr
  exact ⟨_, l.forward_eq_some epsW epsB r (h r hr), by simp⟩

theorem BnnLayer.forwardBatch_eq_none (l : BnnLayer) (epsW : ℕ → ℕ → ℝ)
    (epsB : ℕ → ℝ) (xs : List (List ℝ)) (r : List ℝ) (hr : r ∈ xs)
    (hlen : r.length ≠ l.in_features) :
    l.forwardBatch epsW epsB xs = none :=
  mapMOpt_eq_none _ xs r hr (l.forward_eq_none epsW epsB r hlen)

theorem reluBatch_shape (xs : List (List ℝ)) (n : ℕ)
    (h : ∀ r ∈ xs, r.length = n) :
    (reluBatch xs).length = xs.length ∧ ∀ r ∈ reluBatch xs, r.length = n := by
  constructor
  · simp [reluBatch]
  · intro r hr
    simp only [reluBatch, List.mem_map] at hr
    obtain ⟨r0, hr0, rfl⟩ := hr
    simp [h r0 hr0]

theorem batchNorm1d_shape (n : ℕ) (gamma beta : ℕ → ℝ) (xs : List (List ℝ))
    (hB : 2 ≤ xs.length) (h : ∀ r ∈ xs, r.length = n) :
    ∃ ys, batchNorm1d n gamma beta xs = some ys ∧ ys.length = xs.length ∧
      ∀ r ∈ ys, r.length = n := by
  unfold batchNorm1d
  rw [if_pos (And.intro hB h)]
  refine ⟨_, rfl, by simp, ?_⟩
  intro r hr
  simp only [List.mem_map] at hr
  obtain ⟨r0, _, rfl⟩ := hr
  simp

theorem dropout_shape (p : ℝ) (keep : ℕ → ℕ → Bool) (xs : List (List ℝ))
    (n : ℕ) (h : ∀ r ∈ xs, r.length = n) :
    (dropout p keep xs).length = xs.length ∧
      ∀ r ∈ dropout p keep xs, r.length = n := by
  constructor
  · simp [dropout]
  · intro r hr
    simp only [dropout, List.mem_map, List.mem_range] at hr
    obtain ⟨i, hi, rfl⟩ := hr
    have hmem : xs.getD i [] ∈ xs := by
      have hget : xs.getD i [] = xs[i] := by
        simp [List.getElem?_eq_getElem hi]
      rw [hget]
      exact List.getElem_mem hi
    simp only [List.length_map, List.length_range]
    exact h _ hmem

theorem Stage.forward_shape (s : Stage) (nz : Noise) (xs : List (List ℝ))
    (hrows : ∀ r ∈ xs, r.length = s.layer.in_features) (hbn : s.bnOK)
    (hB : s.isDrop = true → 2 ≤ xs.length) :
    ∃ ys, s.forward nz xs = some ys ∧ ys.length = xs.length ∧
      ∀ r ∈ ys, r.length = s.layer.out_features := by
  cases s with
  | dropHidden l n gamma beta p =>
    have hn : n = l.out_features := hbn
    obtain ⟨ys, hys, hylen, hyrow⟩ := l.forwardBatch_shape nz.w nz.b xs hrows
    have hyn : ∀ r ∈ ys, r.length = n := fun r hr => hn ▸ hyrow r hr
    obtain ⟨zs, hzs, hzlen, hzrow⟩ :=
      batchNorm1d_shape n gamma beta ys (by rw [hylen]; exact hB rfl) hyn
    obtain ⟨hrl, hrr⟩ := reluBatch_shape zs n hzrow
    obtain ⟨hdl, hdr⟩ := dropout_shape p nz.keep (reluBatch zs) n hrr
    refine ⟨dropout p nz.keep (reluBatch zs), ?_, ?_, ?_⟩
    · simp [Stage.forward, hys, hzs]
    · rw [hdl, hrl, hzlen, hylen]
    · intro r hr
      rw [show Stage.layer (.dropHidden l n gamma beta p) = l from rfl, ← hn]
      exact hdr r hr
  | mlpHidden l =>
    obtain ⟨ys, hys, hylen, hyrow⟩ := l.forwardBatch_shape nz.w nz.b xs hrows
    obtain ⟨hrl, hrr⟩ := reluBatch_shape ys l.out_features hyrow
    refine ⟨reluBatch ys, ?_, ?_, hrr⟩
    · simp [Stage.forward, hys]
    · rw [hrl, hylen]
  | finalLayer l =>
    exact l.forwardBatch_shape nz.w nz.b xs hrows

theorem stagesForward_shape (st : List Stage) (a b : ℕ) (ns : ℕ → Noise)
    (xs : List (List ℝ)) (hch : ChainOK st a b)
    (hrows : ∀ r ∈ xs, r.length = a)
    (hB : ∀ s ∈ st, s.isDrop = true → 2 ≤ xs.length) :
    ∃ ys, stagesForward st ns xs = some ys ∧ ys.length = xs.length ∧
      ∀ r ∈ ys, r.length = b := by
  induction st generalizing a ns xs with
  | nil =>
    have hab : a = b := hch
    exact ⟨xs, rfl, rfl, hab ▸ hrows⟩
  | cons s rest ih =>
    obtain ⟨hin, hbn, hch'⟩ := hch
    obtain ⟨ys, hys, hylen, hyrow⟩ := s.forward_shape (ns 0) xs
      (fun r hr => hin ▸ hrows r hr) hbn (hB s (by simp))
    obtain ⟨zs, hzs, hzlen, hzrow⟩ := ih s.layer.out_features
      (fun i => ns (i + 1)) ys hch' hyrow
      (fun s' hs' hd => hylen ▸ hB s' (by simp [hs']) hd)
    refine ⟨zs, ?_, by rw [hzlen, hylen], hzrow⟩
    simp [stagesForward, hys, hzs]

theorem chainOK_range'_map (f : ℕ → Stage) (d : ℕ → ℕ) (k m : ℕ)
    (hf : ∀ i, (f i).layer.in_features = d i ∧
      (f i).layer.out_features = d (i + 1) ∧ (f i).bnOK) :
    ChainOK ((List.range' k m).map f) (d k) (d (k + m)) := by
  induction m generalizing k with
  | zero => exact rfl
  | succ m ih =>
    rw [List.range'_succ, List.map_cons]
    refine ⟨(hf k).1, (hf k).2.2, ?_⟩
    rw [(hf k).2.1, show k + (m + 1) = k + 1 + m by omega]
    exact ih (k + 1)

theorem mlp_construct_ok (args : List ℕ) (eta : ℕ → ℕ → ℕ → ℝ)
    (h3 : 3 ≤ args.length) :
    MLPBayesianModel.construct args eta =
      .ok ((List.range (args.length - 1)).map (mlpStage args eta)) := by
  unfold MLPBayesianModel.construct
  rw [if_neg (by omega)]

theorem drop_construct_ok (args : List ℕ) (eta : ℕ → ℕ → ℕ → ℝ)
    (h3 : 3 ≤ args.length) :
    DropoutBayesianModel.construct args eta =
      .ok ((List.range (args.length - 1)).map (dropStage args eta)) := by
  unfold DropoutBayesianModel.construct
  rw [if_neg (by omega)]

theorem getElem?_range_map {α : Type} (f : ℕ → α) (n i : ℕ) (h : i < n) :
    ((List.range n).map f)[i]? = some (f i) := by
  simp [List.getElem?_range h]

theorem mlpStage_dims (args : List ℕ) (eta : ℕ → ℕ → ℕ → ℝ) (i : ℕ) :
    (mlpStage args eta i).layer.in_features = args.getD i 0 ∧
    (mlpStage args eta i).layer.out_features = args.getD (i + 1) 0 ∧
    (mlpStage args eta i).bnOK := by
  by_cases hi : i < args.length - 2 <;>
    simp [mlpStage, hi, Stage.layer, Stage.bnOK, BnnLayer.construct]

theorem dropStage_dims (args : List ℕ) (eta : ℕ → ℕ → ℕ → ℝ) (i : ℕ) :
    (dropStage args eta i).layer.in_features = args.getD i 0 ∧
    (dropStage args eta i).layer.out_features = args.getD (i + 1) 0 ∧
    (dropStage args eta i).bnOK := by
  by_cases hi : i < args.length - 2 <;>
    simp [dropStage, hi, Stage.layer, Stage.bnOK, BnnLayer.construct]

theorem mlpStage_isDrop (args : List ℕ) (eta : ℕ → ℕ → ℕ → ℝ) (i : ℕ) :
    (mlpStage args eta i).isDrop = false := by
  by_cases hi : i < args.length - 2 <;> simp [mlpStage, hi, Stage.isDrop]

theorem mlp_stages_chain (args : List ℕ) (eta : ℕ → ℕ → ℕ → ℝ) :
    ChainOK ((List.range (args.length - 1)).map (mlpStage args eta))
      (args.getD 0 0) (args.getD (args.length - 1) 0) := by
  have h := chainOK_range'_map (mlpStage args eta) (fun i => args.getD i 0) 0
    (args.length - 1) (mlpStage_dims args eta)
  rw [List.range_eq_range']
  simpa using h

theorem drop_stages_chain (args : List ℕ) (eta : ℕ → ℕ → ℕ → ℝ) :
    ChainOK ((List.range (args.length - 1)).map (dropStage args eta))
      (args.getD 0 0) (args.getD (args.length - 1) 0) := by
  have h := chainOK_range'_map (dropStage args eta) (fun i => args.getD i 0) 0
    (args.length - 1) (dropStage_dims args eta)
  rw [List.range_eq_range']
  simpa using h

theorem stagesForward_head_mismatch (s : Stage) (rest : List Stage)
    (ns : ℕ → Noise) (xs : List (List ℝ)) (r : List ℝ) (hr : r ∈ xs)
    (hlen : r.length ≠ s.layer.in_features) :
    stagesForward (s :: rest) ns xs = none := by
  cases s with
  | dropHidden l n gamma beta p =>
    have hfb := l.forwardBatch_eq_none (ns 0).w (ns 0).b xs r hr hlen
    simp [stagesForward, Stage.forward, hfb]
  | mlpHidden l =>
    have hfb := l.forwardBatch_eq_none (ns 0).w (ns 0).b xs r hr hlen
    simp [stagesForward, Stage.forward, hfb]
  | finalLayer l =>
    have hfb := l.forwardBatch_eq_none (ns 0).w (ns 0).b xs r hr hlen
    simp [stagesForward, Stage.forward, hfb]

theorem gaussian_prod_line_null (c : ℝ) :
    ((ProbabilityTheory.gaussianReal 0 1).prod
      (ProbabilityTheory.gaussianReal 0 1))
      {p : ℝ × ℝ | p.1 - p.2 = c} = 0 := by
  have hmeas : MeasurableSet {p : ℝ × ℝ | p.1 - p.2 = c} :=
    (isClosed_eq (continuous_fst.sub continuous_snd)
      continuous_const).measurableSet
  rw [MeasureTheory.Measure.prod_apply hmeas]
  have hsec : ∀ a : ℝ,
      Set.preimage (Prod.mk a) {p : ℝ × ℝ | p.1 - p.2 = c} = {a - c} := by
    intro a
    ext y
    simp only [Set.mem_preimage, Set.mem_setOf_eq, Set.mem_singleton_iff]
    constructor <;> intro h <;> linarith
  have hsing : ∀ a : ℝ,
      ProbabilityTheory.gaussianReal 0 1 {a - c} = 0 := fun a =>
    ProbabilityTheory.gaussianReal_absolutelyContinuous 0 one_ne_zero
      Real.volume_singleton
  simp only [hsec, hsing]
  simp

theorem underName_mem (pre : String) (ps : List (String × ParamTensor))
    (q : String × ParamTensor) (hq : q ∈ ps) :
    (pre ++ "." ++ q.1, q.2) ∈ underName pre ps :=
  List.mem_map.mpr ⟨q, hq, rfl⟩

theorem stagesNamedParameters_mem (st : List Stage) (k i : ℕ)
    (hi : i < st.length) (q : String × ParamTensor)
    (hq : q ∈ (st.get ⟨i, hi⟩).namedParameters) :
    ("layers." ++ toString (k + i) ++ "." ++ q.1, q.2) ∈
      stagesNamedParameters k st := by
  induction st generalizing k i with
  | nil => cases hi
  | cons s rest ih =>
    cases i with
    | zero =>
      exact List.mem_append_left _ (underName_mem _ _ q hq)
    | succ i =>
      have hi' : i < rest.length := Nat.lt_of_succ_lt_succ hi
      have h := ih (k + 1) i hi' hq
      rw [show k + (i + 1) = k + 1 + i by omega]
      exact List.mem_append_right _ h

end Lemmas

section Claims

/-- **C1.** For every `BnnLayer` and every input row of length
`in_features`, a forward call with the standard-normal draws `epsW`/`epsB`
made by that call returns the affine transform of the input by the
reparameterized samples `mean + exp(log_scale) * noise` — one fresh sample
per weight entry and per bias entry — and the output has length
`out_features`; the stored log-scale parameters enter the computation only
through `Real.exp`, never raw. -/
theorem claim_C1_forward_reparameterized (l : BnnLayer) (epsW : ℕ → ℕ → ℝ)
    (epsB : ℕ → ℝ) (x : List ℝ) (hx : x.length = l.in_features) :
    ∃ y, l.forward epsW epsB x = some y ∧ y.length = l.out_features ∧
      ∀ i, i < l.out_features → y.getD i 0 =
        (∑ j ∈ Finset.range l.in_features,
          x.getD j 0 * (l.weight_mu i j + Real.exp (l.weight_std i j) * epsW i j))
        + (l.bias_mu i + Real.exp (l.bias_std i) * epsB i) := by
  refine ⟨_, l.forward_eq_some epsW epsB x hx, by simp, ?_⟩
  intro i hi
  exact getD_range_map _ _ i 0 hi

/-- Witness for C1 at a concrete layer and input. -/
theorem claim_C1_witness :
    ∃ y, (BnnLayer.construct 2 3 fun _ _ => 0).forward (fun _ _ => 0)
      (fun _ => 0) [1, 2] = some y ∧ y.length = 3 :=
  (claim_C1_forward_reparameterized (BnnLayer.construct 2 3 fun _ _ => 0)
    (fun _ _ => 0) (fun _ => 0) [1, 2] rfl).imp fun _ h => ⟨h.1, h.2.1⟩

/-- **C2.** For positive `in_features`/`out_features`, construction succeeds
and initializes: `weight_std` and `bias_std` exactly `-5.0` everywhere,
`bias_mu` zero, and `weight_mu` by Kaiming-normal initialization over the
input fan for a ReLU nonlinearity — each entry is `kaimingStd in_features`
times a standard-normal draw, where `kaimingStd in_features ^ 2
= 2 / in_features` (so the entries have zero mean and variance
`2 / in_features`); the shape fields record `(out_features, in_features)`. -/
theorem claim_C2_construct_init (inF outF : ℕ) (_hin : 0 < inF)
    (_hout : 0 < outF) (eta : ℕ → ℕ → ℝ) :
    (BnnLayer.construct inF outF eta).in_features = inF ∧
    (BnnLayer.construct inF outF eta).out_features = outF ∧
    (∀ i j, (BnnLayer.construct inF outF eta).weight_std i j = -5) ∧
    (∀ i, (BnnLayer.construct inF outF eta).bias_std i = -5) ∧
    (∀ i, (BnnLayer.construct inF outF eta).bias_mu i = 0) ∧
    (∀ i j, (BnnLayer.construct inF outF eta).weight_mu i j =
      kaimingStd inF * eta i j) ∧
    kaimingStd inF ^ 2 = 2 / inF ∧
    (∀ i j, eta i j = 0 → (BnnLayer.construct inF outF eta).weight_mu i j = 0) := by
  refine ⟨rfl, rfl, fun _ _ => rfl, fun _ => rfl, fun _ => rfl,
    fun _ _ => rfl, ?_, ?_⟩
  · rw [kaimingStd, div_pow, Real.sq_sqrt (by norm_num),
      Real.sq_sqrt (by positivity)]
  · intro i j h
    simp [BnnLayer.construct, h]

/-- Witness for C2 at concrete sizes. -/
theorem claim_C2_witness :
    kaimingStd 2 ^ 2 = 2 / ((2 : ℕ) : ℝ) ∧
      ∀ i j, (BnnLayer.construct 2 3 fun _ _ => 1).weight_std i j = -5 :=
  ⟨(claim_C2_construct_init 2 3 (by decide) (by decide)
      fun _ _ => 1).2.2.2.2.2.2.1,
    (claim_C2_construct_init 2 3 (by decide) (by decide) fun _ _ => 1).2.2.1⟩

/-- **C3 counterexample.** `out_features = 0` is not a positive integer, yet
the constructor call succeeds and returns a layer: `BnnLayer.__init__`
contains no dimension validation and no `InvalidDimension` error path, so
the claimed failure does not occur at this input. -/
theorem claim_C3_counterexample :
    ¬ 0 < (0 : ℕ) ∧
      BnnLayer.constructE 5 0 (fun _ _ => 0) =
        .ok (BnnLayer.construct 5 0 fun _ _ => 0) :=
  ⟨by decide, rfl⟩

/-- **C3 (amended).** The constructor performs no validation of its
arguments: for every pair of feature counts (in particular every pair of
positive integers) the call returns the constructed layer and never raises
an `InvalidDimension` error. -/
theorem claim_C3_no_validation (inF outF : ℕ) (eta : ℕ → ℕ → ℝ) :
    BnnLayer.constructE inF outF eta = .ok (BnnLayer.construct inF outF eta) :=
  rfl

/-- **C4 counterexample.** With only 2 feature sizes both constructors do
raise, but the raised message is "at least need two values to create an
mlp", not the claimed "at least two values to create an mlp". -/
theorem claim_C4_counterexample :
    MLPBayesianModel.construct [4, 2] (fun _ _ _ => 0) =
      .error "at least need two values to create an mlp" ∧
    DropoutBayesianModel.construct [4, 2] (fun _ _ _ => 0) =
      .error "at least need two values to create an mlp" ∧
    "at least need two values to create an mlp" ≠
      "at least two values to create an mlp" := by
  exact ⟨rfl, rfl, by decide⟩

/-- **C4 (amended).** Both variable-depth constructors raise a `ValueError`
carrying the message "at least need two values to create an mlp" if and
only if fewer than 3 feature sizes are supplied; with 3 or more sizes
construction succeeds. -/
theorem claim_C4_min_three_sizes (args : List ℕ) (eta etad : ℕ → ℕ → ℕ → ℝ) :
    (MLPBayesianModel.construct args eta = .error mlpErrorMessage ↔
      args.length < 3) ∧
    (DropoutBayesianModel.construct args etad = .error mlpErrorMessage ↔
      args.length < 3) ∧
    (3 ≤ args.length →
      (∃ st, MLPBayesianModel.construct args eta = .ok st) ∧
      ∃ st, DropoutBayesianModel.construct args etad = .ok st) := by
  by_cases h : args.length < 3
  · refine ⟨by simp [MLPBayesianModel.construct, h],
      by simp [DropoutBayesianModel.construct, h], ?_⟩
    intro h3
    omega
  · refine ⟨by simp [MLPBayesianModel.construct, h],
      by simp [DropoutBayesianModel.construct, h], ?_⟩
    intro h3
    exact ⟨⟨_, mlp_construct_ok args eta h3⟩, ⟨_, drop_construct_ok args etad h3⟩⟩

/-- Witness for C4 at concrete size lists. -/
theorem claim_C4_witness :
    ∃ st, MLPBayesianModel.construct [4, 8, 2] (fun _ _ _ => 0) = .ok st :=
  ((claim_C4_min_three_sizes [4, 8, 2] (fun _ _ _ => 0)
    (fun _ _ _ => 0)).2.2 (by decide)).1

/-- **C5.** For every list of `N ≥ 3` feature sizes, each variable-depth
constructor builds exactly `N - 1` stages: every stage `i < N - 2` is the
layer `sizes[i] → sizes[i+1]` followed by ReLU — the regularized
`DropoutBayesianModel` variant additionally inserting batch normalization
over `sizes[i+1]` channels right after the layer and dropout of fixed
probability `0.2` right after the ReLU — and the final stage is a bare
layer `sizes[N-2] → sizes[N-1]`.  `forward` pipes the input through the
stages in order: a batch whose rows have length `sizes[0]` yields a batch
of the same row count whose rows have length `sizes[N-1]` (the regularized
variant under batch-norm's requirement of more than one row). -/
theorem claim_C5_variable_depth (args : List ℕ) (h3 : 3 ≤ args.length)
    (eta etad : ℕ → ℕ → ℕ → ℝ) :
    (∃ stM, MLPBayesianModel.construct args eta = .ok stM ∧
      stM.length = args.length - 1 ∧
      (∀ i, i < args.length - 2 →
        stM[i]? = some (.mlpHidden (BnnLayer.construct (args.getD i 0)
          (args.getD (i + 1) 0) (eta i)))) ∧
      stM[args.length - 2]? = some (.finalLayer (BnnLayer.construct
        (args.getD (args.length - 2) 0) (args.getD (args.length - 1) 0)
        (eta (args.length - 2)))) ∧
      ∀ (ns : ℕ → Noise) (xs : List (List ℝ)),
        (∀ r ∈ xs, r.length = args.getD 0 0) →
        ∃ ys, stagesForward stM ns xs = some ys ∧ ys.length = xs.length ∧
          ∀ r ∈ ys, r.length = args.getD (args.length - 1) 0) ∧
    (∃ stD, DropoutBayesianModel.construct args etad = .ok stD ∧
      stD.length = args.length - 1 ∧
      (∀ i, i < args.length - 2 →
        stD[i]? = some (.dropHidden (BnnLayer.construct (args.getD i 0)
          (args.getD (i + 1) 0) (etad i)) (args.getD (i + 1) 0)
          (fun _ => 1) (fun _ => 0) (2 / 10))) ∧
      stD[args.length - 2]? = some (.finalLayer (BnnLayer.construct
        (args.getD (args.length - 2) 0) (args.getD (args.length - 1) 0)
        (etad (args.length - 2)))) ∧
      ∀ (ns : ℕ → Noise) (xs : List (List ℝ)), 2 ≤ xs.length →
        (∀ r ∈ xs, r.length = args.getD 0 0) →
        ∃ ys, stagesForward stD ns xs = some ys ∧ ys.length = xs.length ∧
          ∀ r ∈ ys, r.length = args.getD (args.length - 1) 0) := by
  constructor
  · refine ⟨_, mlp_construct_ok args eta h3, by simp, ?_, ?_, ?_⟩
    · intro i hi
      rw [getElem?_range_map _ _ i (by omega)]
      simp [mlpStage, hi]
    · rw [getElem?_range_map _ _ _ (by omega)]
      have harith : args.length - 2 + 1 = args.length - 1 := by omega
      simp [mlpStage, harith]
    · intro ns xs hrows
      exact stagesForward_shape _ _ _ ns xs (mlp_stages_chain args eta) hrows
        (by
          intro s hs hd
          obtain ⟨i, _, rfl⟩ := List.mem_map.mp hs
          rw [mlpStage_isDrop] at hd
          cases hd)
  · refine ⟨_, drop_construct_ok args etad h3, by simp, ?_, ?_, ?_⟩
    · intro i hi
      rw [getElem?_range_map _ _ i (by omega)]
      simp [dropStage, hi]
    · rw [getElem?_range_map _ _ _ (by omega)]
      have harith : args.length - 2 + 1 = args.length - 1 := by omega
      simp [dropStage, harith]
    · intro ns xs hB hrows
      exact stagesForward_shape _ _ _ ns xs (drop_stages_chain args etad) hrows
        (fun _ _ _ => hB)

/-- Witness for C5 at feature sizes `(4, 8, 8, 2)` with a concrete input. -/
theorem claim_C5_witness :
    ∃ stM, MLPBayesianModel.construct [4, 8, 8, 2] (fun _ _ _ => 0) = .ok stM ∧
      stM.length = 3 ∧
      ∃ ys, stagesForward stM
        (fun _ => ⟨fun _ _ => 0, fun _ => 0, fun _ _ => true⟩)
        [[1, 1, 1, 1]] = some ys := by
  obtain ⟨stM, hok, hlen, _, _, hfwd⟩ :=
    (claim_C5_variable_depth [4, 8, 8, 2] (by decide) (fun _ _ _ => 0)
      (fun _ _ _ => 0)).1
  obtain ⟨ys, hys, _, _⟩ := hfwd
    (fun _ => ⟨fun _ _ => 0, fun _ => 0, fun _ _ => true⟩) [[1, 1, 1, 1]]
    (by
      intro r hr
      simp only [List.mem_singleton] at hr
      subst hr
      rfl)
  exact ⟨stM, hok, hlen, ys, hys⟩

/-- **C6.** For positive `input_size`, `hidden_size`, `output_size`, the
fixed-depth `BayesianModel` holds exactly the two layers
`layer1 : input_size → hidden_size` and `layer2 : hidden_size → output_size`,
its forward is `layer2(relu(layer1(x)))` with no normalization and no
dropout, and a `[B, input_size]` input yields a `[B, output_size]` output. -/
theorem claim_C6_fixed_depth (inputSize hiddenSize outputSize : ℕ)
    (_h1 : 0 < inputSize) (_h2 : 0 < hiddenSize) (_h3 : 0 < outputSize)
    (eta1 eta2 : ℕ → ℕ → ℝ) (n1 n2 : Noise) (xs : List (List ℝ))
    (hrows : ∀ r ∈ xs, r.length = inputSize) :
    (BayesianModel.construct inputSize hiddenSize outputSize eta1 eta2).layer1 =
      BnnLayer.construct inputSize hiddenSize eta1 ∧
    (BayesianModel.construct inputSize hiddenSize outputSize eta1 eta2).layer2 =
      BnnLayer.construct hiddenSize outputSize eta2 ∧
    (∀ (m : BayesianModel) (xs0 : List (List ℝ)), m.forward n1 n2 xs0 =
      (m.layer1.forwardBatch n1.w n1.b xs0).bind fun ys =>
        m.layer2.forwardBatch n2.w n2.b (reluBatch ys)) ∧
    ∃ ys, (BayesianModel.construct inputSize hiddenSize outputSize
        eta1 eta2).forward n1 n2 xs = some ys ∧
      ys.length = xs.length ∧ ∀ r ∈ ys, r.length = outputSize := by
  refine ⟨rfl, rfl, fun m xs0 => rfl, ?_⟩
  obtain ⟨ys1, h1, hlen1, hrow1⟩ :=
    (BnnLayer.construct inputSize hiddenSize eta1).forwardBatch_shape
      n1.w n1.b xs hrows
  obtain ⟨hrl, hrr⟩ := reluBatch_shape ys1 hiddenSize hrow1
  obtain ⟨ys2, h2, hlen2, hrow2⟩ :=
    (BnnLayer.construct hiddenSize outputSize eta2).forwardBatch_shape
      n2.w n2.b (reluBatch ys1) hrr
  refine ⟨ys2, ?_, by rw [hlen2, hrl, hlen1], fun r hr => hrow2 r hr⟩
  simp [BayesianModel.forward, BayesianModel.construct, h1, h2]

/-- Witness for C6 at sizes `(4, 8, 2)` and a one-row input. -/
theorem claim_C6_witness :
    ∃ ys, (BayesianModel.construct 4 8 2 (fun _ _ => 0) fun _ _ => 0).forward
      ⟨fun _ _ => 0, fun _ => 0, fun _ _ => true⟩
      ⟨fun _ _ => 0, fun _ => 0, fun _ _ => true⟩ [[1, 2, 3, 4]] = some ys ∧
      ys.length = 1 :=
  ((claim_C6_fixed_depth 4 8 2 (by decide) (by decide) (by decide)
    (fun _ _ => 0) (fun _ _ => 0) _ _ [[1, 2, 3, 4]]
    (by
      intro r hr
      simp only [List.mem_singleton] at hr
      subst hr
      rfl)).2.2.2).imp fun _ h => ⟨h.1, h.2.1⟩

/-- **C7.** A forward call whose input's trailing dimension differs from the
configured `in_features` (for the networks: from `sizes[0]`) fails with the
shape error of the underlying affine operation `F.linear`, propagated as
`none` with no silent correction or retry: stated for a layer on one row,
a layer on a batch, the fixed-depth model, and both variable-depth
models. -/
theorem claim_C7_dimension_mismatch :
    (∀ (l : BnnLayer) (epsW : ℕ → ℕ → ℝ) (epsB : ℕ → ℝ) (x : List ℝ),
      x.length ≠ l.in_features → l.forward epsW epsB x = none) ∧
    (∀ (l : BnnLayer) (epsW : ℕ → ℕ → ℝ) (epsB : ℕ → ℝ)
      (xs : List (List ℝ)) (r : List ℝ), r ∈ xs →
      r.length ≠ l.in_features → l.forwardBatch epsW epsB xs = none) ∧
    (∀ (m : BayesianModel) (n1 n2 : Noise) (xs : List (List ℝ))
      (r : List ℝ), r ∈ xs → r.length ≠ m.layer1.in_features →
      m.forward n1 n2 xs = none) ∧
    (∀ (args : List ℕ) (eta : ℕ → ℕ → ℕ → ℝ) (st : List Stage)
      (ns : ℕ → Noise) (xs : List (List ℝ)) (r : List ℝ),
      MLPBayesianModel.construct args eta = .ok st → r ∈ xs →
      r.length ≠ args.getD 0 0 → stagesForward st ns xs = none) ∧
    (∀ (args : List ℕ) (eta : ℕ → ℕ → ℕ → ℝ) (st : List Stage)
      (ns : ℕ → Noise) (xs : List (List ℝ)) (r : List ℝ),
      DropoutBayesianModel.construct args eta = .ok st → r ∈ xs →
      r.length ≠ args.getD 0 0 → stagesForward st ns xs = none) := by
  refine ⟨fun l epsW epsB x hx => l.forward_eq_none epsW epsB x hx,
    fun l epsW epsB xs r hr hlen => l.forwardBatch_eq_none epsW epsB xs r hr hlen,
    ?_, ?_, ?_⟩
  · intro m n1 n2 xs r hr hlen
    have hfb := m.layer1.forwardBatch_eq_none n1.w n1.b xs r hr hlen
    simp [BayesianModel.forward, hfb]
  · intro args eta st ns xs r hok hr hlen
    have h3 : 3 ≤ args.length := by
      by_contra hlt
      rw [MLPBayesianModel.construct, if_pos (by omega)] at hok
      cases hok
    rw [mlp_construct_ok args eta h3] at hok
    injection hok with hst
    subst hst
    obtain ⟨m, hm⟩ : ∃ m, args.length - 1 = m + 1 := ⟨args.length - 2, by omega⟩
    rw [hm, List.range_succ_eq_map, List.map_cons]
    exact stagesForward_head_mismatch _ _ ns xs r hr
      (by rw [(mlpStage_dims args eta 0).1]; exact hlen)
  · intro args eta st ns xs r hok hr hlen
    have h3 : 3 ≤ args.length := by
      by_contra hlt
      rw [DropoutBayesianModel.construct, if_pos (by omega)] at hok
      cases hok
    rw [drop_construct_ok args eta h3] at hok
    injection hok with hst
    subst hst
    obtain ⟨m, hm⟩ : ∃ m, args.length - 1 = m + 1 := ⟨args.length - 2, by omega⟩
    rw [hm, List.range_succ_eq_map, List.map_cons]
    exact stagesForward_head_mismatch _ _ ns xs r hr
      (by rw [(dropStage_dims args eta 0).1]; exact hlen)

/-- Witness for C7: a 3-wide row into a 2-input layer, and a 1-wide row
into a network whose first size is 4. -/
theorem claim_C7_witness :
    (BnnLayer.construct 2 3 fun _ _ => 0).forward (fun _ _ => 0) (fun _ => 0)
      [1, 2, 3] = none ∧
    stagesForward ((List.range 2).map (mlpStage [4, 8, 2] fun _ _ _ => 0))
      (fun _ => ⟨fun _ _ => 0, fun _ => 0, fun _ _ => true⟩) [[1]] = none :=
  ⟨claim_C7_dimension_mismatch.1 _ _ _ _ (by decide),
    claim_C7_dimension_mismatch.2.2.2.1 [4, 8, 2] (fun _ _ _ => 0) _ _ _ [1]
      (mlp_construct_ok [4, 8, 2] _ (by decide)) (by simp) (by decide)⟩

/-- **C8.** Two forward calls on the same layer with the same input and
freshly drawn noise produce different outputs with probability 1: fixing
every other draw arbitrarily, the pair of independent standard-normal bias
draws the two calls make at any output coordinate `i < out_features`
already confines output equality to an event of probability 0; and the
degenerate case of an effective scale `exp(log_scale) = 0` never occurs in
exact arithmetic, `Real.exp` being strictly positive.  The output is a
function of the drawn noise alone — no caching between calls. -/
theorem claim_C8_stochastic_forward (l : BnnLayer) (x : List ℝ)
    (hx : x.length = l.in_features) (i : ℕ) (hi : i < l.out_features)
    (epsW epsW' : ℕ → ℕ → ℝ) (epsB epsB' : ℕ → ℝ) :
    (∀ t : ℝ, 0 < Real.exp t) ∧
    ((ProbabilityTheory.gaussianReal 0 1).prod
        (ProbabilityTheory.gaussianReal 0 1))
      {p : ℝ × ℝ |
        l.forward epsW (Function.update epsB i p.1) x =
          l.forward epsW' (Function.update epsB' i p.2) x} = 0 := by
  refine ⟨Real.exp_pos, ?_⟩
  set S : ℝ := (∑ j ∈ Finset.range l.in_features,
    x.getD j 0 * (l.weight_mu i j + Real.exp (l.weight_std i j) * epsW i j))
    + l.bias_mu i with hS
  set S' : ℝ := (∑ j ∈ Finset.range l.in_features,
    x.getD j 0 * (l.weight_mu i j + Real.exp (l.weight_std i j) * epsW' i j))
    + l.bias_mu i with hS'
  apply MeasureTheory.measure_mono_null
    (t := {p : ℝ × ℝ | p.1 - p.2 = (S' - S) / Real.exp (l.bias_std i)})
  · intro p hp
    simp only [Set.mem_setOf_eq] at hp ⊢
    rw [l.forward_eq_some epsW _ x hx, l.forward_eq_some epsW' _ x hx] at hp
    have hL := Option.some.inj hp
    have hgi := congrArg (fun L => L.getD i 0) hL
    simp only at hgi
    rw [getD_range_map _ _ i 0 hi, getD_range_map _ _ i 0 hi,
      Function.update_same, Function.update_same] at hgi
    rw [eq_div_iff (Real.exp_ne_zero _)]
    linear_combination hgi
  · exact gaussian_prod_line_null _

/-- Witness for C8 at a concrete layer, input and coordinate. -/
theorem claim_C8_witness :
    (∀ t : ℝ, 0 < Real.exp t) ∧
    ((ProbabilityTheory.gaussianReal 0 1).prod
        (ProbabilityTheory.gaussianReal 0 1))
      {p : ℝ × ℝ |
        (BnnLayer.construct 2 3 fun _ _ => 0).forward (fun _ _ => 0)
          (Function.update (fun _ => 0) 0 p.1) [1, 2] =
        (BnnLayer.construct 2 3 fun _ _ => 0).forward (fun _ _ => 0)
          (Function.update (fun _ => 0) 0 p.2) [1, 2]} = 0 :=
  claim_C8_stochastic_forward (BnnLayer.construct 2 3 fun _ _ => 0) [1, 2]
    rfl 0 (by decide) (fun _ _ => 0) (fun _ _ => 0) (fun _ => 0) fun _ => 0

/-- **C9.** Every component exposes its full learnable parameter set as an
enumerable collection of named tensors: a layer enumerates its four
mean/log-scale tensors; the fixed-depth model enumerates both layers'
parameters under `layer1.`/`layer2.`; a variable-depth model enumerates
every stage's parameters (the stage's layer tensors, plus the batch-norm
affine parameters where present) under the stage's index; and every tensor
of a stage's layer appears under some name in that stage's enumeration. -/
theorem claim_C9_parameters_exposed :
    (∀ l : BnnLayer,
      ("weight_mu", ParamTensor.mat l.out_features l.in_features l.weight_mu)
        ∈ l.namedParameters ∧
      ("weight_std", ParamTensor.mat l.out_features l.in_features l.weight_std)
        ∈ l.namedParameters ∧
      ("bias_mu", ParamTensor.vec l.out_features l.bias_mu)
        ∈ l.namedParameters ∧
      ("bias_std", ParamTensor.vec l.out_features l.bias_std)
        ∈ l.namedParameters) ∧
    (∀ (m : BayesianModel) (q : String × ParamTensor),
      q ∈ m.layer1.namedParameters →
      ("layer1." ++ q.1, q.2) ∈ m.namedParameters) ∧
    (∀ (m : BayesianModel) (q : String × ParamTensor),
      q ∈ m.layer2.namedParameters →
      ("layer2." ++ q.1, q.2) ∈ m.namedParameters) ∧
    (∀ (st : List Stage) (k i : ℕ) (hi : i < st.length)
      (q : String × ParamTensor), q ∈ (st.get ⟨i, hi⟩).namedParameters →
      ("layers." ++ toString (k + i) ++ "." ++ q.1, q.2) ∈
        stagesNamedParameters k st) ∧
    (∀ (s : Stage) (q : String × ParamTensor), q ∈ s.layer.namedParameters →
      ∃ nm : String, (nm, q.2) ∈ s.namedParameters) := by
  refine ⟨?_, ?_, ?_, ?_, ?_⟩
  · intro l
    refine ⟨?_, ?_, ?_, ?_⟩ <;> simp [BnnLayer.namedParameters]
  · intro m q hq
    exact List.mem_append_left _ (underName_mem _ _ q hq)
  · intro m q hq
    exact List.mem_append_right _ (underName_mem _ _ q hq)
  · intro st k i hi q hq
    exact stagesNamedParameters_mem st k i hi q hq
  · intro s q hq
    cases s with
    | dropHidden l n gamma beta p =>
      exact ⟨"0." ++ q.1,
        List.mem_append_left _ (underName_mem "0" _ q hq)⟩
    | mlpHidden l =>
      exact ⟨"0." ++ q.1, underName_mem "0" _ q hq⟩
    | finalLayer l =>
      exact ⟨q.1, by rw [Prod.mk.eta]; exact hq⟩

/-- Witness for C9 at a concrete layer and a concrete one-stage model. -/
theorem claim_C9_witness :
    ("weight_mu",
      ParamTensor.mat 3 2 (BnnLayer.construct 2 3 fun _ _ => 0).weight_mu)
      ∈ (BnnLayer.construct 2 3 fun _ _ => 0).namedParameters ∧
    ("layers." ++ toString (0 : ℕ) ++ "." ++ "bias_mu",
      ParamTensor.vec 3 (BnnLayer.construct 2 3 fun _ _ => 0).bias_mu)
      ∈ stagesNamedParameters 0
        [Stage.finalLayer (BnnLayer.construct 2 3 fun _ _ => 0)] :=
  ⟨(claim_C9_parameters_exposed.1 (BnnLayer.construct 2 3 fun _ _ => 0)).1,
    claim_C9_parameters_exposed.2.2.2.1
      [Stage.finalLayer (BnnLayer.construct 2 3 fun _ _ => 0)] 0 0
      (by decide)
      ("bias_mu", ParamTensor.vec 3 (BnnLayer.construct 2 3 fun _ _ => 0).bias_mu)
      (by simp [Stage.namedParameters, BnnLayer.namedParameters,
        BnnLayer.construct])⟩

/-- **C10.** With three feature sizes `(a, b, c)`, `MLPBayesianModel` builds
exactly the pipeline of `BayesianModel(a, b, c)` — a layer `a → b` followed
by ReLU, then a bare layer `b → c` — and, given identically initialized
parameters (the same kaiming draws `eta 0`/`eta 1`) and identical per-call
noise, the two forward functions agree on every input batch. -/
theorem claim_C10_mlp_refines_fixed_depth (a b c : ℕ)
    (eta : ℕ → ℕ → ℕ → ℝ) (ns : ℕ → Noise) :
    MLPBayesianModel.construct [a, b, c] eta =
      .ok [.mlpHidden (BnnLayer.construct a b (eta 0)),
        .finalLayer (BnnLayer.construct b c (eta 1))] ∧
    (BayesianModel.construct a b c (eta 0) (eta 1)).layer1 =
      BnnLayer.construct a b (eta 0) ∧
    (BayesianModel.construct a b c (eta 0) (eta 1)).layer2 =
      BnnLayer.construct b c (eta 1) ∧
    ∀ xs : List (List ℝ),
      stagesForward [.mlpHidden (BnnLayer.construct a b (eta 0)),
          .finalLayer (BnnLayer.construct b c (eta 1))] ns xs =
        (BayesianModel.construct a b c (eta 0) (eta 1)).forward
          (ns 0) (ns 1) xs := by
  refine ⟨?_, rfl, rfl, ?_⟩
  · rw [mlp_construct_ok [a, b, c] eta (by simp),
      show [a, b, c].length - 1 = 2 from rfl,
      show List.range 2 = [0, 1] from rfl]
    simp [mlpStage]
  · intro xs
    cases h1 : (BnnLayer.construct a b (eta 0)).forwardBatch
        (ns 0).w (ns 0).b xs with
    | none =>
      simp [stagesForward, Stage.forward, BayesianModel.forward,
        BayesianModel.construct, h1]
    | some ys =>
      cases h2 : (BnnLayer.construct b c (eta 1)).forwardBatch
          (ns 1).w (ns 1).b (reluBatch ys) with
      | none =>
        simp [stagesForward, Stage.forward, BayesianModel.forward,
          BayesianModel.construct, h1, h2]
      | some zs =>
        simp [stagesForward, Stage.forward, BayesianModel.forward,
          BayesianModel.construct, h1, h2]

end Claims

end BnnModel
